import Mathlib

/-!
# iotz: container lifecycle and command dispatch (`src/common.js`)

A shallow embedding of `getProjectConfig`, `createImage`, `runCommand`,
`cleanCommon` and `exports.build` of `src/common.js`, and of `buildCommands`
of `extensions/micro-python/index.js`.

The JavaScript is effectful; here every procedure is a function from the
answers of the outside world (the `docker images` listing, the inode of the
project directory, the parsed `iotz.json`, the exit codes of the external
tools, the plugin registry) to the ordered list of effects it performs and the
way the process ends.  Asynchronous completion callbacks are continuations.
-/

namespace Iotz

/-! ## JavaScript values -/

/-- A value produced by `JSON.parse`. Numbers are integers here: the code only
ever tests a value for truthiness. -/
inductive JsVal where
  | null : JsVal
  | bool (b : Bool) : JsVal
  | num (n : Int) : JsVal
  | str (s : String) : JsVal
  | arr (items : List JsVal) : JsVal
  | obj (fields : List (String × JsVal)) : JsVal

/-- JavaScript truthiness (`!!v`). -/
def JsVal.truthy : JsVal → Bool
  | .null => false
  | .bool b => b
  | .num n => n != 0
  | .str s => s != ""
  | .arr _ => true
  | .obj _ => true

/-- A project configuration: the own properties of a JSON object, in insertion
order with distinct keys as `JSON.parse` leaves them. `null` is `none` at the
use sites (`Option Config`). -/
abbrev Config := List (String × JsVal)

/-- Property read `config[k]`: `none` is `undefined`. -/
def Config.get (c : Config) (k : String) : Option JsVal :=
  match c with
  | [] => none
  | (k', v) :: rest => if k' = k then some v else Config.get rest k

/-- Own-property test, what `Object.prototype.hasOwnProperty` computes. -/
def Config.hasOwn (c : Config) (k : String) : Bool :=
  match c with
  | [] => false
  | (k', _) :: rest => if k' = k then true else Config.hasOwn rest k

/-- Property write `config[k] = v`: replaces the value of an existing property
in place, otherwise appends a new property. -/
def Config.set (c : Config) (k : String) (v : JsVal) : Config :=
  match c with
  | [] => [(k, v)]
  | (k', v') :: rest =>
    if k' = k then (k', v) :: rest else (k', v') :: Config.set rest k v

/-- Truthiness of `config.toolchain`; `undefined` is falsy. -/
def Config.toolchainTruthy (c : Config) : Bool :=
  match c.get "toolchain" with
  | some v => v.truthy
  | none => false

/-- `getProjectConfig(compile_path)` (common.js:14-31). `file` is the result of
`JSON.parse(fs.readFileSync(proj_path) + "")`, `none` when it threw or gave a
falsy value; `detected` is what `extensions.autoDetectToolchain(compile_path)`
returns. -/
def getProjectConfig (file detected : Option Config) : Option Config :=
  match file with
  | none => detected
  | some config =>
    if !config.toolchainTruthy then
      match detected with
      | some config_detected =>
        match config_detected.get "toolchain" with
        | some t => if t.truthy then some (config.set "toolchain" t) else some config
        | none => some config
      | none => some config
    else some config

/-! ## Container identity

`fs.statSync(compile_path).ino` is a JavaScript number, a double: the inode of
the directory rounded to 53 significant bits. `"aiot_iotz_" + ino` prints it
with `Number::toString`. -/

/-- Number of binary digits of `v`; `fuel` bounds the recursion. -/
def bitLength : Nat → Nat → Nat
  | 0, _ => 0
  | fuel + 1, v => if v = 0 then 0 else bitLength fuel (v / 2) + 1

/-- The double nearest to the integer `v`, ties to the even significand. -/
def roundToDouble (v : Nat) : Nat :=
  if v < 2 ^ 53 then v
  else
    let shift := bitLength v v - 53
    let q := v / 2 ^ shift
    let r := v % 2 ^ shift
    let half := 2 ^ (shift - 1)
    if half < r ∨ (r = half ∧ q % 2 = 1) then (q + 1) * 2 ^ shift else q * 2 ^ shift

/-- The `ino` field that `fs.statSync` reports for a directory whose inode is
`inode`. -/
def statIno (inode : Nat) : Nat := roundToDouble inode

/-- The integer with the fewest significant decimal digits that still rounds to
the double `x`, the nearest to `x` among those (ties to the even digit
string): the search of `Number::toString`, started at `k` significant digits
for an `x` of `digits` decimal digits. -/
def shortestFrom (x digits : Nat) : Nat → Nat → Nat
  | 0, _ => x
  | fuel + 1, k =>
    let p := 10 ^ (digits - k)
    let lo := x / p * p
    let hi := lo + p
    if roundToDouble lo = x ∧ roundToDouble hi = x then
      if x - lo < hi - x then lo
      else if hi - x < x - lo then hi
      else if (x / p) % 2 = 0 then lo else hi
    else if roundToDouble lo = x then lo
    else if roundToDouble hi = x then hi
    else shortestFrom x digits fuel (k + 1)

/-- A digit string without its trailing zeros. -/
def dropTrailingZeros (ds : List Char) : List Char :=
  (ds.reverse.dropWhile (fun c => c = '0')).reverse

/-- `Number::toString` for a non-negative integer-valued number: plain decimal
below `2 ^ 53`, where every integer is a double; above, the shortest digits
that read back as the same double, padded with zeros up to 21 digits and in
exponent form beyond. An argument that is no double is rounded first. -/
def numberToString (n : Nat) : String :=
  let x := roundToDouble n
  if x < 2 ^ 53 then toString x
  else
    let digits := (toString x).length
    let v := shortestFrom x digits digits 1
    let text := toString v
    if text.length ≤ 21 then text
    else
      match dropTrailingZeros text.data with
      | [] => text
      | [d] => String.mk [d] ++ "e+" ++ toString (text.length - 1)
      | d :: rest => String.mk (d :: '.' :: rest) ++ "e+" ++ toString (text.length - 1)

/-- The image name `"aiot_iotz_" + ino` (common.js:36, 106, 140, 200) for the
JavaScript number `ino`. -/
def containerName (ino : Nat) : String := "aiot_iotz_" ++ numberToString ino

/-- The instance name `container_name + "_"` (common.js:107). -/
def instanceName (ino : Nat) : String := containerName ino ++ "_"

/-! ## Command arguments and the `-1` sentinel -/

/-- What `args.get(command)` yields: the text after the command, or the number
`-1` when there is none. -/
inductive CmdVal where
  | minusOne : CmdVal
  | str (s : String) : CmdVal
deriving DecidableEq

/-- String conversion, as performed by `+` with a string and by a template
literal. -/
def CmdVal.text : CmdVal → String
  | .minusOne => "-1"
  | .str s => s

/-- The characters `StringToNumber` strips from both ends (ECMAScript
`StrWhiteSpaceChar`: white space and line terminators). -/
def isStrWhiteSpaceChar (c : Char) : Bool :=
  let n := c.toNat
  n = 0x9 || n = 0xA || n = 0xB || n = 0xC || n = 0xD || n = 0x20 || n = 0xA0 ||
  n = 0x1680 || (0x2000 ≤ n && n ≤ 0x200A) || n = 0x2028 || n = 0x2029 ||
  n = 0x202F || n = 0x205F || n = 0x3000 || n = 0xFEFF

/-- Value of a run of decimal digits. -/
def digitsValue (ds : List Char) : Nat :=
  ds.foldl (fun acc d => 10 * acc + (d.toNat - 48)) 0

/-- The optional `ExponentPart` at the end of a `StrUnsignedDecimalLiteral`:
`some e` when `cs` is empty (`e = 0`) or is `e`/`E`, an optional sign and one
or more digits; `none` when `cs` is anything else. -/
def exponentPart (cs : List Char) : Option Int :=
  match cs with
  | [] => some 0
  | c :: rest =>
    if c = 'e' ∨ c = 'E' then
      match rest with
      | '-' :: ds =>
        if ds ≠ [] ∧ ds.all Char.isDigit then some (-(digitsValue ds : Int)) else none
      | '+' :: ds =>
        if ds ≠ [] ∧ ds.all Char.isDigit then some (digitsValue ds : Int) else none
      | ds =>
        if ds ≠ [] ∧ ds.all Char.isDigit then some (digitsValue ds : Int) else none
    else none

/-- Whether the mathematical value `m * 10 ^ e` rounds to the double `1.0`
(round to nearest, ties to even): the closed interval
`[1 - 2 ^ (-54), 1 + 2 ^ (-53)]`. -/
def roundsToOne (m : Nat) (e : Int) : Bool :=
  if 0 ≤ e then m = 1 && e = 0
  else
    let p := 10 ^ (-e).toNat
    (2 ^ 54 - 1) * p ≤ m * 2 ^ 54 && m * 2 ^ 53 ≤ (2 ^ 53 + 1) * p

/-- Whether a `StrUnsignedDecimalLiteral` (digits, optional fraction, optional
exponent) denotes a number that rounds to `1.0`. Text that is no such literal,
`Infinity` included, gives `false`. -/
def unsignedLiteralIsOne (cs : List Char) : Bool :=
  let intDigits := cs.takeWhile Char.isDigit
  let rest := cs.dropWhile Char.isDigit
  let fracDigits :=
    match rest with
    | '.' :: r => r.takeWhile Char.isDigit
    | _ => []
  let tail :=
    match rest with
    | '.' :: r => r.dropWhile Char.isDigit
    | r => r
  if intDigits = [] ∧ fracDigits = [] then false
  else
    match exponentPart tail with
    | some e => roundsToOne (digitsValue (intDigits ++ fracDigits)) (e - fracDigits.length)
    | none => false

/-- The comparison `s == -1` for a string `s`: `StringToNumber(s)` is `-1`.
Only a decimal literal with a leading minus sign can be negative; the radix
literals `0x`, `0o`, `0b` take no sign. -/
def stringLooseEqMinusOne (s : String) : Bool :=
  let trimmed :=
    ((s.data.dropWhile isStrWhiteSpaceChar).reverse.dropWhile isStrWhiteSpaceChar).reverse
  match trimmed with
  | '-' :: cs => unsignedLiteralIsOne cs
  | _ => false

/-- The test `runCmd != -1` (loose inequality) used by the plugins and by the
`make` branch. -/
def CmdVal.looseNeMinusOne : CmdVal → Bool
  | .minusOne => false
  | .str s => !stringLooseEqMinusOne s

/-- The expression `(runCmd != -1 ? runCmd : "")`. -/
def CmdVal.orEmpty (runCmd : CmdVal) : String :=
  if runCmd.looseNeMinusOne then runCmd.text else ""

/-! ## Effects, outcomes and the outside world -/

/-- The fixed console messages of `common.js`, without colour codes. -/
inductive Msg where
  | notInitialized
  | tryInit
  | initializing
  | warnNoToolchain
  | sharedDrive
  | needIotzJson
  | noToolchainDefined
  | somethingBad
  | somethingWrong
  | unknownCommand
  | needCommand
  | containerDeleted
deriving DecidableEq

/-- The literal text of each message. -/
def Msg.text : Msg → String
  | .notInitialized => "there wasn\x27t any project \x27initialized\x27 on this path."
  | .tryInit => "try \x27iotz init\x27 ?"
  | .initializing => "initializing the project container.."
  | .warnNoToolchain => "no \x27toolchain\x27 is defined under iotz.json."
  | .sharedDrive => "Have you shared the current drive on Docker for Windows?"
  | .needIotzJson => "iotz.json file is needed. try \x27iotz help\x27"
  | .noToolchainDefined =>
    "no toolchain is defined. i.e. \"toolchain\":\"arduino\" or \"toolchain\":\"mbed\" etc.."
  | .somethingBad => "something bad happened.."
  | .somethingWrong => "something went wrong"
  | .unknownCommand => "unknown command"
  | .needCommand => "you should provide a command to run after"
  | .containerDeleted => "container is deleted"

/-- One observable effect of the tool. Reading the image listing and the inode
are not recorded; neither is the text a plugin prints on its own. -/
inductive Event where
  /-- `createLocalContainer()`: provisioning of the shared base image. -/
  | provisionBase
  /-- `console.error` of a fixed message. -/
  | stderr (m : Msg)
  /-- `console.log` of a fixed message. -/
  | stdout (m : Msg)
  /-- Call of the plugin's `build(config, runCmd, command, compile_path)`. -/
  | pluginBuild (runCmd : CmdVal) (command : String)
  /-- Call of the plugin's `directCall(config, runCmd, command, compile_path)`. -/
  | pluginDirectCall (runCmd : CmdVal) (command : String)
  /-- `fs.writeFileSync(<compile_path>/Dockerfile, content)`. -/
  | writeDockerfile (content : String)
  /-- `docker build . --force-rm -t <image>`. -/
  | dockerBuild (image : String)
  /-- `rimraf.sync(<compile_path>/Dockerfile)`. -/
  | removeDockerfile
  /-- Call of the `callback` field of a plugin's build result. -/
  | pluginCallback
  /-- `docker container rm -f "/<instance>"`. -/
  | containerRm (inst : String)
  /-- `docker run --rm --name <instance> ... <image> /bin/bash -c "<cmd>"`. -/
  | containerRun (inst : String) (image : String) (cmd : String)
  /-- `docker run -ti -v ... <image>` of the `connect` branch. -/
  | connectRun (image : String)
  /-- `docker image rm -f <image>`. -/
  | imageRm (image : String)
deriving DecidableEq

/-- How the process ends. -/
inductive Outcome where
  /-- `process.exit(code)`. -/
  | exited (code : Nat)
  /-- The last handler returned and nothing is pending: exit status 0. -/
  | finished
  /-- An exception nobody catches. -/
  | crashed
deriving DecidableEq

/-- A run: the effects in order and the way the process ends. -/
structure Run where
  trace : List Event
  outcome : Outcome
deriving DecidableEq

/-- Effects `evs` followed by the run `r`. -/
def Run.after (evs : List Event) (r : Run) : Run :=
  { trace := evs ++ r.trace, outcome := r.outcome }

/-- Result of calling into code outside `common.js`. -/
inductive Call (α : Type) where
  /-- It returned `a`. -/
  | ret (a : α)
  /-- It called `process.exit(code)`. -/
  | exits (code : Nat)
  /-- It threw. -/
  | throws
deriving DecidableEq

/-- A plugin's build result `{run, callback}`: `run` is a string or absent
(`none`), `callback` tells whether the field is non-null. -/
structure BuildResult where
  run : Option String
  callback : Bool
deriving DecidableEq

/-- The two capabilities of a toolchain plugin that `common.js` calls. The
compile path is fixed for a run and left out. A `build` that returns nothing
is `ret none`. -/
structure Plugin where
  build : Option Config → CmdVal → String → Call (Option BuildResult)
  directCall : Option Config → CmdVal → String → Call CmdVal

/-- Everything the outside world answers during one invocation. -/
structure World where
  /-- Output of `docker images -a`. -/
  images : String
  /-- `fs.statSync(compile_path).ino`, a JavaScript number. -/
  ino : Nat
  /-- `args.getCommand()`. -/
  command : String
  /-- `args.get(command)`. -/
  arg : CmdVal
  /-- Parsed `iotz.json`, a JSON object; `none` when reading or parsing failed
  or gave a falsy value. -/
  file : Option Config
  /-- Result of `extensions.autoDetectToolchain(compile_path)`. -/
  detected : Option Config
  /-- The composition `extensions.requireExtension(extensions.getToolchain(t))`
  for a toolchain value `t` (`none` is `undefined`). -/
  lookup : Option JsVal → Call Plugin
  /-- The strict query `extensions.getToolchain(command, 1)`. -/
  strictToolchain : String → Option String
  /-- Exit code of `docker build`. -/
  buildExit : Nat
  /-- Exit code of `docker run` in `runCommand`. -/
  runExit : Nat
  /-- Whether the interactive `docker run -ti` of `connect` throws. -/
  connectFails : Bool
  /-- Whether `process.platform === "win32"`. -/
  win32 : Bool

/-- The test `haystack.indexOf(needle) != -1`. -/
def containsText (haystack needle : List Char) : Bool :=
  match haystack with
  | [] => needle.isEmpty
  | c :: rest => needle.isPrefixOf (c :: rest) || containsText rest needle

/-- The test `images.indexOf(name) != -1` on the image listing. -/
def World.lists (w : World) (name : String) : Bool :=
  containsText w.images.data name.data

/-! ## The image builder: `createImage` -/

/-- The build script of common.js:77-82 for image `container_name` and the
final value of `runCmd`. -/
def dockerfile (container_name : String) (runCmd : CmdVal) : String :=
  "\n    FROM azureiot/iotz_local\n\n    WORKDIR /src/program\n\n    RUN echo \"Setting up "
    ++ container_name ++ "\" " ++ runCmd.text

/-- Result of common.js:61-75, the container-initialization hook: either the
process ended there, or the effects so far, the plugin's `ret` and the final
value of `runCmd`. -/
inductive Hook where
  | halt (r : Run)
  | go (evs : List Event) (ret : Option BuildResult) (runCmd : CmdVal)

/-- Lines 61-75 of `createImage`: the configuration is resolved again and, when
it has a truthy `toolchain`, the plugin's `build` is called with the command
`container_init`. -/
def initHook (w : World) : Hook :=
  let runCmd := w.arg
  match getProjectConfig w.file w.detected with
  | none => .go [] none runCmd
  | some config =>
    if !config.toolchainTruthy then .go [.stderr .warnNoToolchain] none runCmd
    else
      match w.lookup (config.get "toolchain") with
      | .exits code => .halt ⟨[], .exited code⟩
      | .throws => .halt ⟨[], .crashed⟩
      | .ret plugin =>
        match plugin.build (some config) runCmd "container_init" with
        | .exits code => .halt ⟨[.pluginBuild runCmd "container_init"], .exited code⟩
        | .throws => .halt ⟨[.pluginBuild runCmd "container_init"], .crashed⟩
        | .ret none => .go [.pluginBuild runCmd "container_init"] none runCmd
        | .ret (some ret) =>
          match ret.run with
          | none => .halt ⟨[.pluginBuild runCmd "container_init"], .crashed⟩
          | some run =>
            if run.length ≠ 0 then
              .go [.pluginBuild runCmd "container_init"] (some ret) (.str ("&& " ++ run))
            else .go [.pluginBuild runCmd "container_init"] (some ret) runCmd

/-- The effects of `ret.callback(config)` guarded by `ret && ret.callback`. -/
def callbackEvents (ret : Option BuildResult) : List Event :=
  match ret with
  | some r => if r.callback then [.pluginCallback] else []
  | none => []

/-- `createImage(args, compile_path, config, callback)` (common.js:33-101). -/
def createImage (w : World) (config : Option Config) (callback : Nat → Run) : Run :=
  let container_name := containerName w.ino
  let command := w.command
  if command = "clean" ∧ config.isNone = true then callback 0
  else
    let base : List Event :=
      if !w.lists "azureiot/iotz_local" then [.provisionBase] else []
    if !w.lists container_name ∨ command = "init" then
      if command = "connect" then
        ⟨base ++ [.stderr .notInitialized, .stderr .tryInit], .exited 1⟩
      else
        match initHook w with
        | .halt r => Run.after (base ++ [.stdout .initializing]) r
        | .go evs ret runCmd =>
          Run.after
            (base ++ [.stdout .initializing] ++ evs ++
              [.writeDockerfile (dockerfile container_name runCmd),
               .dockerBuild container_name, .removeDockerfile] ++ callbackEvents ret)
            (callback w.buildExit)
    else Run.after base (callback 0)

/-! ## The container runner: `runCommand` and `cleanCommon` -/

/-- `runCommand(args, compile_path, CMD, callback)` (common.js:104-126). The
assignment to the global `active_instance`, read only by the `SIGINT` handler,
is not part of the trace. -/
def runCommand (w : World) (CMD : String) (callback : Nat → Run) : Run :=
  let container_name := containerName w.ino
  let active_instance := instanceName w.ino
  Run.after
    [.containerRm active_instance, .containerRun active_instance container_name CMD]
    (callback w.runExit)

/-- `exports.cleanCommon(compile_path)` (common.js:138-146). -/
def cleanCommon (w : World) : List Event :=
  [.imageRm (containerName w.ino), .stdout .containerDeleted]

/-! ## The dispatcher: `exports.build` -/

/-- Result of the `switch` of common.js:155-220: either the process ended (or
the handler returned) inside it, or the effects so far, the plugin's `ret` and
the value of `runCmd` after it. -/
inductive Branch where
  | halt (r : Run)
  | go (evs : List Event) (ret : Option BuildResult) (runCmd : CmdVal)

/-- The `switch (command)` of common.js:155-220. -/
def branch (w : World) (config : Option Config) : Branch :=
  let command := w.command
  let runCmd := w.arg
  if command = "init" ∨ command = "compile" ∨ command = "clean" ∨ command = "export" then
    let pre : List Event :=
      if command = "init" ∧ w.win32 = true then [.stdout .sharedDrive] else []
    match config with
    | none =>
      if command = "clean" then .halt ⟨pre ++ cleanCommon w, .finished⟩
      else .halt ⟨pre ++ [.stderr .needIotzJson], .exited 1⟩
    | some c =>
      if c.hasOwn "hasOwnProperty" then .halt ⟨pre, .crashed⟩
      else if !c.hasOwn "toolchain" then
        if command = "clean" then .halt ⟨pre ++ cleanCommon w, .finished⟩
        else .halt ⟨pre ++ [.stderr .noToolchainDefined], .exited 1⟩
      else
        match w.lookup (c.get "toolchain") with
        | .exits code => .halt ⟨pre, .exited code⟩
        | .throws => .halt ⟨pre ++ [.stderr .somethingBad], .exited 1⟩
        | .ret plugin =>
          match plugin.build (some c) runCmd command with
          | .exits code => .halt ⟨pre ++ [.pluginBuild runCmd command], .exited code⟩
          | .throws =>
            .halt ⟨pre ++ [.pluginBuild runCmd command, .stderr .somethingBad], .exited 1⟩
          | .ret ret => .go (pre ++ [.pluginBuild runCmd command]) ret runCmd
  else if command = "run" then .go [] none runCmd
  else if command = "connect" then
    if w.connectFails then
      .halt ⟨[.connectRun (containerName w.ino), .stderr .somethingWrong], .exited 1⟩
    else .go [.connectRun (containerName w.ino)] none runCmd
  else if command = "make" then .go [] none (.str (command ++ " " ++ runCmd.orEmpty))
  else if w.strictToolchain command = some command then
    match w.lookup (some (.str command)) with
    | .exits code => .halt ⟨[], .exited code⟩
    | .throws => .halt ⟨[], .crashed⟩
    | .ret plugin =>
      match plugin.directCall config runCmd command with
      | .exits code => .halt ⟨[.pluginDirectCall runCmd command], .exited code⟩
      | .throws => .halt ⟨[.pluginDirectCall runCmd command], .crashed⟩
      | .ret r => .go [.pluginDirectCall runCmd command] none r
  else .halt ⟨[.stderr .unknownCommand], .exited 1⟩

/-- The completion handler given to `runCommand` (common.js:236-247). -/
def afterRun (w : World) (ret : Option BuildResult) (errorCode : Nat) : Run :=
  if errorCode ≠ 0 then ⟨[], .exited errorCode⟩
  else
    ⟨callbackEvents ret ++ (if w.command = "clean" then cleanCommon w else []), .finished⟩

/-- The value of `runCmd` after common.js:222-224. -/
def overrideRun (ret : Option BuildResult) (runCmd : CmdVal) : CmdVal :=
  match ret with
  | some r =>
    match r.run with
    | some run => .str run
    | none => runCmd
  | none => runCmd

/-- The completion handler given to `createImage` (common.js:152-248). -/
def dispatch (w : World) (config : Option Config) (errorCode : Nat) : Run :=
  match branch w config with
  | .halt r => r
  | .go evs ret runCmd₀ =>
    match overrideRun ret runCmd₀ with
    | .minusOne =>
      ⟨evs ++ [.stderr .needCommand], .exited (if errorCode ≠ 0 then errorCode else 1)⟩
    | .str CMD =>
      if errorCode ≠ 0 then ⟨evs, .exited errorCode⟩
      else Run.after evs (runCommand w CMD (afterRun w ret))

/-- `exports.build = function makeBuild(args, compile_path)` (common.js:148-249). -/
def makeBuild (w : World) : Run :=
  let config := getProjectConfig w.file w.detected
  createImage w config (dispatch w config)

/-! ## The micro-python plugin -/

/-- `exports.buildCommands` of `extensions/micro-python/index.js` (lines 52-77).
The message printed before `process.exit(1)` is not recorded. -/
def buildCommands (_config : Option Config) (runCmd : CmdVal) (command : String) :
    Call (Option BuildResult) :=
  if command = "init" then .ret (some ⟨some "", false⟩)
  else if command = "localFolderContainerConstructer" then .ret (some ⟨some "", false⟩)
  else if command = "clean" then .ret (some ⟨some "", false⟩)
  else if command = "compile" then .ret (some ⟨some ("micropython " ++ runCmd.orEmpty), false⟩)
  else if command = "export" then .exits 0
  else .exits 1

/-- `exports.selfCall` of `extensions/micro-python/index.js` (lines 20-22):
the `run` field of `buildCommands(config, runCmd, 'compile', compile_path)`. -/
def selfCall (config : Option Config) (runCmd : CmdVal) (_command : String) : Call CmdVal :=
  match buildCommands config runCmd "compile" with
  | .ret (some r) =>
    match r.run with
    | some run => .ret (.str run)
    | none => .throws
  | .ret none => .throws
  | .exits code => .exits code
  | .throws => .throws

/-- Modelled from the spec: the plugin registry (`extensions/index.js`) is not
among the sources. The plugin it hands out for `micro-python` is taken to
expose `buildCommands` as the `build(config, runArg, command, path)` of the
plugin interface and `selfCall` as its `directCall`. -/
def microPython : Plugin :=
  { build := buildCommands, directCall := selfCall }

/-! ## Observations on traces -/

/-- The command strings given to `runCommand`, in order. -/
def containerCommands : List Event → List String
  | [] => []
  | .containerRun _ _ cmd :: rest => cmd :: containerCommands rest
  | _ :: rest => containerCommands rest

/-- Whether the effect is part of a project image build: the write of the build
script or the `docker build`. -/
def Event.isImageBuild : Event → Bool
  | .writeDockerfile _ => true
  | .dockerBuild _ => true
  | _ => false

/-- Whether the effect belongs to what follows a successful image step: the
container run of `runCommand` or the call of the plugin callback after it. -/
def Event.isRunPhase : Event → Bool
  | .containerRm _ => true
  | .containerRun _ _ _ => true
  | .pluginCallback => true
  | _ => false

/-- The effects of the `switch` of the dispatcher. -/
def Branch.trace : Branch → List Event
  | .halt r => r.trace
  | .go evs _ _ => evs

/-- Whether the `switch` of the dispatcher returned from the handler without
ending the process. -/
def Branch.returned : Branch → Bool
  | .halt r => decide (r.outcome = .finished)
  | .go _ _ _ => false

/-- Whether the container-initialization hook of `createImage` returns, so that
the build script gets written. -/
def hookReturns (w : World) : Bool :=
  match initHook w with
  | .go _ _ _ => true
  | .halt _ => false

/-! ## The image listing, read as a table

The reading of the listing that the specification has in mind: one image per
line, its name in the first column. `createImage` does not read it this way. -/

/-- The lines of a text. -/
def splitLines : List Char → List (List Char)
  | [] => [[]]
  | c :: rest =>
    if c = '\n' then [] :: splitLines rest
    else
      match splitLines rest with
      | [] => [[c]]
      | l :: ls => (c :: l) :: ls

/-- The first blank-separated column of a line. -/
def firstColumn (line : List Char) : List Char :=
  (line.dropWhile (fun c => c = ' ')).takeWhile (fun c => c ≠ ' ')

/-- Whether an image named exactly `name` appears in the listing. -/
def listsImageNamed (listing name : String) : Bool :=
  (splitLines listing.data).any (fun line => firstColumn line = name.data)

/-! ## Concrete worlds -/

/-- A plugin whose `build` returns `{run: "", callback: null}` for every
command and whose `directCall` echoes the argument. -/
def quietPlugin : Plugin :=
  { build := fun _ _ _ => .ret (some ⟨some "", false⟩)
    directCall := fun _ runCmd _ => .ret runCmd }

/-- Modelled from the spec: the registry (`extensions/index.js`) is not among
the sources. A registry that knows `micro-python` and a toolchain `quiet`;
for any other identifier `requireExtension` fails fatally, ending the process
with code 1. -/
def sampleLookup : Option JsVal → Call Plugin
  | some (.str "micro-python") => .ret microPython
  | some (.str "quiet") => .ret quietPlugin
  | _ => .exits 1

/-- A listing with the base image and the image of the project with inode 7. -/
def listingWith7 : String :=
  "REPOSITORY            TAG       IMAGE ID       CREATED        SIZE\n" ++
  "azureiot/iotz_local   latest    2b5ae6a3c1d2   2 days ago     1.21GB\n" ++
  "aiot_iotz_7           latest    9f3c1d2e4b5a   2 days ago     1.25GB\n"

/-- A listing with the base image and the image of the project with inode 123. -/
def listingWith123 : String :=
  "REPOSITORY            TAG       IMAGE ID       CREATED        SIZE\n" ++
  "azureiot/iotz_local   latest    2b5ae6a3c1d2   2 days ago     1.21GB\n" ++
  "aiot_iotz_123         latest    9f3c1d2e4b5a   2 days ago     1.25GB\n"

/-- A listing with the base image only. -/
def listingBaseOnly : String :=
  "REPOSITORY            TAG       IMAGE ID       CREATED        SIZE\n" ++
  "azureiot/iotz_local   latest    2b5ae6a3c1d2   2 days ago     1.21GB\n"

/-- The world of `iotz <command> <arg>` in the directory with inode `ino`, with
the given listing and `iotz.json`; nothing is auto-detected and every external
tool succeeds. -/
def sampleWorld (images : String) (ino : Nat) (command : String) (arg : CmdVal)
    (file : Option Config) : World :=
  { images := images, ino := ino, command := command, arg := arg, file := file,
    detected := none, lookup := sampleLookup, strictToolchain := fun _ => none,
    buildExit := 0, runExit := 0, connectFails := false, win32 := false }

/-- A completion callback that does nothing. -/
def idleCallback : Nat → Run := fun _ => ⟨[], .finished⟩

/-! ## The text search -/

/-- The search `containsText` finds exactly the contiguous occurrences. -/
theorem containsText_iff_infix (haystack needle : List Char) :
    containsText haystack needle = true ↔ needle <:+: haystack := by
  induction haystack with
  | nil => cases needle <;> simp [containsText]
  | cons c rest ih =>
    simp only [containsText, Bool.or_eq_true, ih, List.isPrefixOf_iff_prefix,
      List.infix_cons_iff]

/-! ## Decimal names are injective -/

theorem digitChar_value (k : Nat) (hk : k < 10) : (Nat.digitChar k).toNat - 48 = k := by
  interval_cases k <;> rfl

theorem toDigitsCore_acc (fuel : Nat) : ∀ (n : Nat) (ds : List Char),
    Nat.toDigitsCore 10 fuel n ds = Nat.toDigitsCore 10 fuel n [] ++ ds := by
  induction fuel with
  | zero => intro n ds; simp [Nat.toDigitsCore]
  | succ f ih =>
    intro n ds
    simp only [Nat.toDigitsCore]
    split
    · simp
    · rw [ih (n / 10) (_ :: ds), ih (n / 10) [_]]; simp

theorem digitsValue_snoc (xs : List Char) (d : Char) :
    digitsValue (xs ++ [d]) = 10 * digitsValue xs + (d.toNat - 48) := by
  simp [digitsValue, List.foldl_append]

theorem digitsValue_toDigitsCore (fuel : Nat) : ∀ n : Nat, n < fuel →
    digitsValue (Nat.toDigitsCore 10 fuel n []) = n := by
  induction fuel with
  | zero => intro n h; omega
  | succ f ih =>
    intro n h
    simp only [Nat.toDigitsCore]
    split
    · simp [digitsValue, digitChar_value (n % 10) (Nat.mod_lt _ (by decide))]
      omega
    · rw [toDigitsCore_acc, digitsValue_snoc, ih (n / 10) (by omega),
        digitChar_value (n % 10) (Nat.mod_lt _ (by decide))]
      omega

/-- Reading back the decimal text of a number gives the number. -/
theorem digitsValue_toString (n : Nat) : digitsValue (toString n).data = n := by
  show digitsValue (Nat.repr n).data = n
  simp only [Nat.repr, List.asString, Nat.toDigits]
  exact digitsValue_toDigitsCore (n + 1) n (by omega)

theorem toString_nat_inj {i j : Nat} (h : toString i = toString j) : i = j := by
  have := congrArg (fun s => digitsValue s.data) h
  simpa [digitsValue_toString] using this

theorem string_append_left_cancel {p a b : String} (h : p ++ a = p ++ b) : a = b := by
  have := congrArg String.data h
  simp only [String.data_append] at this
  exact String.ext (List.append_cancel_left this)

theorem string_append_right_cancel {p a b : String} (h : a ++ p = b ++ p) : a = b := by
  have := congrArg String.data h
  simp only [String.data_append] at this
  exact String.ext (List.append_cancel_right this)

/-- Below `2 ^ 53` every integer is a double. -/
theorem roundToDouble_small (n : Nat) (h : n < 2 ^ 53) : roundToDouble n = n := by
  unfold roundToDouble
  rw [if_pos h]

/-- Below `2 ^ 53` a number is printed in plain decimal. -/
theorem numberToString_small (n : Nat) (h : n < 2 ^ 53) : numberToString n = toString n := by
  unfold numberToString
  simp only [roundToDouble_small n h]
  rw [if_pos h]

/-- Below `2 ^ 53` the inode is reported exactly. -/
theorem statIno_small (n : Nat) (h : n < 2 ^ 53) : statIno n = n :=
  roundToDouble_small n h

theorem containerName_small (n : Nat) (h : n < 2 ^ 53) :
    containerName (statIno n) = "aiot_iotz_" ++ toString n := by
  rw [statIno_small n h, containerName, numberToString_small n h]

/-- Above `2 ^ 53` the name holds the shortest digits of the double. -/
theorem containerName_above_2_53 :
    containerName (statIno (2 ^ 60)) = "aiot_iotz_1152921504606847000" ∧
    containerName (statIno (2 ^ 64 - 1)) = "aiot_iotz_18446744073709552000" := by
  decide

theorem containerName_inj {i j : Nat} (hi : i < 2 ^ 53) (hj : j < 2 ^ 53)
    (h : containerName (statIno i) = containerName (statIno j)) : i = j := by
  rw [containerName_small i hi, containerName_small j hj] at h
  exact toString_nat_inj (string_append_left_cancel h)

theorem instanceName_inj {i j : Nat} (hi : i < 2 ^ 53) (hj : j < 2 ^ 53)
    (h : instanceName (statIno i) = instanceName (statIno j)) : i = j :=
  containerName_inj hi hj (string_append_right_cancel h)

/-! ## Container identity -/

/-- C6, as stated, fails: the inodes `2 ^ 53` and `2 ^ 53 + 1` are different,
but `fs.statSync` reports both as the number 9007199254740992, so the two
directories get the same image name and the same instance name. -/
theorem container_identity_collides :
    (2 ^ 53 : Nat) ≠ 2 ^ 53 + 1 ∧
    statIno (2 ^ 53) = 9007199254740992 ∧
    statIno (2 ^ 53 + 1) = 9007199254740992 ∧
    containerName (statIno (2 ^ 53)) = "aiot_iotz_9007199254740992" ∧
    containerName (statIno (2 ^ 53 + 1)) = "aiot_iotz_9007199254740992" ∧
    instanceName (statIno (2 ^ 53)) = instanceName (statIno (2 ^ 53 + 1)) := by
  decide

/-- C6, amended: for inodes `i` and `j` below `2 ^ 53`, which a JavaScript
number holds exactly, the image name is `"aiot_iotz_"` followed by the decimal
inode and the instance name is the image name followed by `"_"`; equal inodes
give equal names and different inodes give different image names and
different instance names; and `runCommand`, `cleanCommon`, the `connect`
branch and `createImage` all compute the names from `ino` in this same way. -/
theorem container_identity_injective (i j : Nat) (hi : i < 2 ^ 53) (hj : j < 2 ^ 53) :
    statIno i = i ∧
    containerName (statIno i) = "aiot_iotz_" ++ toString i ∧
    instanceName (statIno i) = containerName (statIno i) ++ "_" ∧
    (containerName (statIno i) = containerName (statIno j) ↔ i = j) ∧
    (instanceName (statIno i) = instanceName (statIno j) ↔ i = j) ∧
    (∀ (w : World) (CMD : String) (cb : Nat → Run),
      runCommand w CMD cb =
        Run.after [.containerRm (instanceName w.ino),
          .containerRun (instanceName w.ino) (containerName w.ino) CMD] (cb w.runExit)) ∧
    (∀ w : World, cleanCommon w = [.imageRm (containerName w.ino), .stdout .containerDeleted]) ∧
    (∀ (w : World) (cfg : Option Config),
      branch { w with command := "connect", connectFails := false } cfg =
        .go [.connectRun (containerName w.ino)] none w.arg) ∧
    (∀ (w : World) (cb : Nat → Run),
      createImage { w with command := "init", file := none, detected := none } none cb =
        Run.after
          ((if !w.lists "azureiot/iotz_local" then [Event.provisionBase] else []) ++
            [.stdout .initializing,
             .writeDockerfile (dockerfile (containerName w.ino) w.arg),
             .dockerBuild (containerName w.ino), .removeDockerfile])
          (cb w.buildExit)) := by
  refine ⟨statIno_small i hi, containerName_small i hi, rfl,
    ⟨containerName_inj hi hj, fun h => h ▸ rfl⟩, ⟨instanceName_inj hi hj, fun h => h ▸ rfl⟩,
    fun _ _ _ => rfl, fun _ => rfl, ?_, ?_⟩
  · intro w cfg
    simp [branch]
  · intro w cb
    simp [createImage, initHook, getProjectConfig, callbackEvents, World.lists]

theorem container_identity_injective_witness :
    (7 : Nat) < 2 ^ 53 ∧ (12 : Nat) < 2 ^ 53 ∧
    containerName (statIno 7) = "aiot_iotz_" ++ toString 7 ∧
    (containerName (statIno 7) = containerName (statIno 12) ↔ 7 = 12) ∧
    (instanceName (statIno 7) = instanceName (statIno 12) ↔ 7 = 12) :=
  ⟨by decide, by decide,
    (container_identity_injective 7 12 (by decide) (by decide)).2.1,
    (container_identity_injective 7 12 (by decide) (by decide)).2.2.2.1,
    (container_identity_injective 7 12 (by decide) (by decide)).2.2.2.2.1⟩

/-! ## `clean` without a configuration -/

/-- C2: for the command `clean` with no resolvable configuration, and whatever
the image listing, `createImage` does nothing but call its callback with 0,
and the whole invocation only removes the cached image and returns. -/
theorem clean_without_config (w : World) (hclean : w.command = "clean")
    (hnull : getProjectConfig w.file w.detected = none) :
    (∀ cb : Nat → Run, createImage w none cb = cb 0) ∧
    makeBuild w =
      ⟨[.imageRm (containerName w.ino), .stdout .containerDeleted], .finished⟩ := by
  have hcreate : ∀ cb : Nat → Run, createImage w none cb = cb 0 := by
    intro cb
    simp [createImage, hclean]
  refine ⟨hcreate, ?_⟩
  simp only [makeBuild, hnull, hcreate]
  simp [dispatch, branch, hclean, cleanCommon]

theorem clean_without_config_witness :
    (sampleWorld "" 7 "clean" .minusOne none).command = "clean" ∧
    getProjectConfig (sampleWorld "" 7 "clean" .minusOne none).file
      (sampleWorld "" 7 "clean" .minusOne none).detected = none ∧
    ((∀ cb : Nat → Run, createImage (sampleWorld "" 7 "clean" .minusOne none) none cb = cb 0) ∧
      makeBuild (sampleWorld "" 7 "clean" .minusOne none) =
        ⟨[.imageRm (containerName 7), .stdout .containerDeleted], .finished⟩) :=
  ⟨rfl, rfl, clean_without_config (sampleWorld "" 7 "clean" .minusOne none) rfl rfl⟩

/-! ## `connect` on a project that was never initialized -/

/-- C3, as stated, fails: with an empty image listing `connect` first provisions
the shared base image and only then prints the message and exits with 1. -/
theorem connect_uninitialized_provisions_base :
    createImage (sampleWorld "" 7 "connect" .minusOne none) none idleCallback =
      ⟨[.provisionBase, .stderr .notInitialized, .stderr .tryInit], .exited 1⟩ ∧
    ¬ (∀ e ∈ (createImage (sampleWorld "" 7 "connect" .minusOne none) none idleCallback).trace,
        e ≠ Event.provisionBase) := by
  decide

/-- C3, amended: for the command `connect`, when the image listing does not
contain the project image name, `createImage` prints the "not initialized"
message and the hint and exits with code 1, for every listing and every
configuration; before that it writes no build script, invokes no project image
build, calls no plugin and prints no toolchain message, and it provisions the
shared base image first exactly when the listing does not contain
`azureiot/iotz_local`. The callback is never invoked. -/
theorem connect_uninitialized (w : World) (config : Option Config) (cb : Nat → Run)
    (hcmd : w.command = "connect") (habsent : w.lists (containerName w.ino) = false) :
    createImage w config cb =
      ⟨(if !w.lists "azureiot/iotz_local" then [Event.provisionBase] else []) ++
        [.stderr .notInitialized, .stderr .tryInit], .exited 1⟩ ∧
    (∀ e ∈ (createImage w config cb).trace, e.isImageBuild = false) ∧
    Msg.notInitialized.text = "there wasn\x27t any project \x27initialized\x27 on this path." := by
  have h : createImage w config cb =
      ⟨(if !w.lists "azureiot/iotz_local" then [Event.provisionBase] else []) ++
        [.stderr .notInitialized, .stderr .tryInit], .exited 1⟩ := by
    simp [createImage, hcmd, habsent]
  refine ⟨h, ?_, rfl⟩
  rw [h]
  intro e he
  by_cases hb : w.lists "azureiot/iotz_local" = true
  · simp [hb] at he
    rcases he with rfl | rfl <;> rfl
  · simp [hb] at he
    rcases he with rfl | rfl | rfl <;> rfl

theorem connect_uninitialized_witness :
    (sampleWorld listingBaseOnly 7 "connect" .minusOne none).command = "connect" ∧
    (sampleWorld listingBaseOnly 7 "connect" .minusOne none).lists (containerName 7) = false ∧
    createImage (sampleWorld listingBaseOnly 7 "connect" .minusOne none) none idleCallback =
      ⟨[.stderr .notInitialized, .stderr .tryInit], .exited 1⟩ :=
  ⟨rfl, by decide,
    (connect_uninitialized (sampleWorld listingBaseOnly 7 "connect" .minusOne none) none
      idleCallback rfl (by decide)).1.trans (by decide)⟩

/-! ## The plugin's `run` string takes precedence -/

/-- C4: for `init`, `compile`, `clean` and `export`, when the plugin's `build`
returns a result whose `run` is a string `s` and the image step reported code
0, the command given to `runCommand` is exactly `s`, whatever the user's
argument is (the missing argument `-1` included). -/
theorem plugin_run_overrides (w : World) (c : Config) (plugin : Plugin) (r : BuildResult)
    (s : String)
    (hcmd : w.command = "init" ∨ w.command = "compile" ∨ w.command = "clean" ∨
      w.command = "export")
    (hproto : c.hasOwn "hasOwnProperty" = false)
    (hown : c.hasOwn "toolchain" = true)
    (hlookup : w.lookup (c.get "toolchain") = .ret plugin)
    (hbuild : plugin.build (some c) w.arg w.command = .ret (some r))
    (hrun : r.run = some s) (_hne : s ≠ "") :
    containerCommands (dispatch w (some c) 0).trace = [s] ∧
    dispatch w (some c) 0 =
      Run.after
        ((if w.command = "init" ∧ w.win32 = true then [Event.stdout .sharedDrive] else []) ++
          [.pluginBuild w.arg w.command])
        (runCommand w s (afterRun w (some r))) := by
  have h : dispatch w (some c) 0 =
      Run.after
        ((if w.command = "init" ∧ w.win32 = true then [Event.stdout .sharedDrive] else []) ++
          [.pluginBuild w.arg w.command])
        (runCommand w s (afterRun w (some r))) := by
    simp [dispatch, branch, hcmd, hproto, hown, hlookup, hbuild, overrideRun, hrun]
  refine ⟨?_, h⟩
  rw [h]
  by_cases hw : w.command = "init" ∧ w.win32 = true <;>
    by_cases hrx : w.runExit = 0 <;>
    by_cases hcl : w.command = "clean" <;>
    cases hr : r.callback <;>
    simp [Run.after, runCommand, afterRun, hw, hrx, hcl, hr, containerCommands, callbackEvents,
      cleanCommon]

theorem plugin_run_overrides_witness :
    containerCommands
      (dispatch (sampleWorld listingWith7 7 "compile" .minusOne
        (some [("toolchain", .str "micro-python")]))
        (some [("toolchain", .str "micro-python")]) 0).trace = ["micropython "] :=
  (plugin_run_overrides
    (sampleWorld listingWith7 7 "compile" .minusOne (some [("toolchain", .str "micro-python")]))
    [("toolchain", .str "micro-python")] microPython ⟨some "micropython ", false⟩ "micropython "
    (Or.inr (Or.inl rfl)) rfl rfl rfl rfl rfl (by decide)).1

/-! ## The micro-python plugin and the `-1` sentinel -/

/-- For `compile`, `buildCommands` returns `"micropython "` followed by the
argument whenever the argument does not compare equal to `-1`, and
`"micropython "` alone when the argument is missing. -/
theorem buildCommands_compile (config : Option Config) (a : String)
    (ha : stringLooseEqMinusOne a = false) :
    buildCommands config (.str a) "compile" = .ret (some ⟨some ("micropython " ++ a), false⟩) ∧
    buildCommands config .minusOne "compile" = .ret (some ⟨some "micropython ", false⟩) := by
  simp [buildCommands, CmdVal.orEmpty, CmdVal.looseNeMinusOne, CmdVal.text, ha]

/-- The scenario of the specification: `iotz compile main.py` with
`{"toolchain":"micro-python"}` on an initialized project runs
`micropython main.py` in the container. -/
theorem micropython_compile_main_py :
    makeBuild (sampleWorld listingWith7 7 "compile" (.str "main.py")
        (some [("toolchain", .str "micro-python")])) =
      ⟨[.pluginBuild (.str "main.py") "compile", .containerRm "aiot_iotz_7_",
        .containerRun "aiot_iotz_7_" "aiot_iotz_7" "micropython main.py"], .finished⟩ := by
  decide

/-- C5 fails at the argument string `"-1"`: `runCmd != -1` is a loose
comparison and `"-1" == -1` holds, so `buildCommands` drops the argument and
returns `run = "micropython "`, and that is the command the dispatcher runs
in the container, not `"micropython -1"`. -/
theorem micropython_compile_drops_minus_one :
    buildCommands (some [("toolchain", .str "micro-python")]) (.str "-1") "compile" =
      .ret (some ⟨some "micropython ", false⟩) ∧
    containerCommands
      (makeBuild (sampleWorld listingWith7 7 "compile" (.str "-1")
        (some [("toolchain", .str "micro-python")]))).trace = ["micropython "] ∧
    "micropython " ≠ "micropython " ++ "-1" := by
  decide

/-! ## `getProjectConfig` and the fields the user set -/

theorem Config.get_set_same (c : Config) (k : String) (v : JsVal) :
    (c.set k v).get k = some v := by
  induction c with
  | nil => simp [Config.set, Config.get]
  | cons p rest ih =>
    obtain ⟨k', v'⟩ := p
    by_cases h : k' = k <;> simp [Config.set, Config.get, h, ih]

theorem Config.get_set_other (c : Config) (k k₁ : String) (v : JsVal) (hne : k₁ ≠ k) :
    (c.set k v).get k₁ = c.get k₁ := by
  induction c with
  | nil => simp [Config.set, Config.get, Ne.symm hne]
  | cons p rest ih =>
    obtain ⟨k', v'⟩ := p
    by_cases h : k' = k
    · subst h
      simp [Config.set, Config.get, Ne.symm hne]
    · by_cases h₁ : k' = k₁
      · subst h₁
        simp [Config.set, Config.get, h]
      · simp [Config.set, Config.get, h, h₁, ih]

theorem Config.hasOwn_set_other (c : Config) (k k₁ : String) (v : JsVal) (hne : k₁ ≠ k) :
    (c.set k v).hasOwn k₁ = c.hasOwn k₁ := by
  induction c with
  | nil => simp [Config.set, Config.hasOwn, Ne.symm hne]
  | cons p rest ih =>
    obtain ⟨k', v'⟩ := p
    by_cases h : k' = k
    · subst h
      simp [Config.set, Config.hasOwn, Ne.symm hne]
    · by_cases h₁ : k' = k₁
      · subst h₁
        simp [Config.set, Config.hasOwn, h]
      · simp [Config.set, Config.hasOwn, h, h₁, ih]

/-- C7, as stated, fails: a `toolchain` field the user set to the empty string
is replaced by the detected toolchain. -/
theorem getProjectConfig_overwrites_falsy_toolchain :
    getProjectConfig (some [("toolchain", .str "")])
        (some [("toolchain", .str "micro-python")]) =
      some [("toolchain", .str "micro-python")] ∧
    ¬ (∀ r : Config,
        getProjectConfig (some [("toolchain", .str "")])
          (some [("toolchain", .str "micro-python")]) = some r →
        ∀ (k : String) (v : JsVal),
          Config.get [("toolchain", JsVal.str "")] k = some v → r.get k = some v) := by
  have h : getProjectConfig (some [("toolchain", .str "")])
      (some [("toolchain", .str "micro-python")]) = some [("toolchain", .str "micro-python")] := by
    simp [getProjectConfig, Config.toolchainTruthy, Config.get, Config.set, JsVal.truthy]
  refine ⟨h, fun hall => ?_⟩
  have := hall _ h "toolchain" (.str "") (by simp [Config.get])
  simp [Config.get] at this

/-- C7, amended: for every config object `c` and every detection result, the
returned config has every field other than `toolchain` exactly as in `c`
(none added, none changed), it is `c` itself whenever the `toolchain` of `c`
is truthy, and its `toolchain` differs from the one of `c` only when that one
is absent or falsy and detection gave a truthy toolchain, which is then the
value merged in. -/
theorem getProjectConfig_keeps_fields (c : Config) (detected : Option Config) :
    ∃ r : Config, getProjectConfig (some c) detected = some r ∧
      (∀ k : String, k ≠ "toolchain" → r.get k = c.get k ∧ r.hasOwn k = c.hasOwn k) ∧
      (c.toolchainTruthy = true → r = c) ∧
      (r.get "toolchain" = c.get "toolchain" ∨
        (c.toolchainTruthy = false ∧
          ∃ (d : Config) (t : JsVal), detected = some d ∧ d.get "toolchain" = some t ∧
            t.truthy = true ∧ r.get "toolchain" = some t)) ∧
      (c.toolchainTruthy = false →
        ∀ (d : Config) (t : JsVal), detected = some d → d.get "toolchain" = some t →
          t.truthy = true → r.get "toolchain" = some t) := by
  by_cases hc : c.toolchainTruthy = true
  · exact ⟨c, by simp [getProjectConfig, hc], fun _ _ => ⟨rfl, rfl⟩, fun _ => rfl, Or.inl rfl,
      fun h => by simp [hc] at h⟩
  · have hc' : c.toolchainTruthy = false := by simpa using hc
    cases hd : detected with
    | none =>
      exact ⟨c, by simp [getProjectConfig, hc'], fun _ _ => ⟨rfl, rfl⟩, fun _ => rfl,
        Or.inl rfl, fun _ d t h => by simp at h⟩
    | some d =>
      cases ht : d.get "toolchain" with
      | none =>
        exact ⟨c, by simp [getProjectConfig, hc', ht], fun _ _ => ⟨rfl, rfl⟩, fun _ => rfl,
          Or.inl rfl, fun _ d' t h h' => by
            simp only [Option.some.injEq] at h; subst h; simp [ht] at h'⟩
      | some t =>
        by_cases htt : t.truthy = true
        · refine ⟨c.set "toolchain" t, by simp [getProjectConfig, hc', ht, htt],
            fun k hk => ⟨Config.get_set_other c _ k t hk, Config.hasOwn_set_other c _ k t hk⟩,
            fun h => by simp [hc'] at h,
            Or.inr ⟨hc', d, t, rfl, ht, htt, Config.get_set_same c _ t⟩, ?_⟩
          intro _ d' t' h h' _
          simp only [Option.some.injEq] at h
          subst h
          rw [ht] at h'
          simp only [Option.some.injEq] at h'
          subst h'
          exact Config.get_set_same c _ t
        · refine ⟨c, by simp [getProjectConfig, hc', ht, htt], fun _ _ => ⟨rfl, rfl⟩,
            fun _ => rfl, Or.inl rfl, ?_⟩
          intro _ d' t' h h' htr
          simp only [Option.some.injEq] at h
          subst h
          rw [ht] at h'
          simp only [Option.some.injEq] at h'
          subst h'
          exact absurd htr htt

/-! ## The build decision of `createImage` -/

/-- Whatever the container-initialization hook does, its own effects hold no
image build: they are at most a warning or the call of the plugin. -/
theorem initHook_no_build (w : World) :
    match initHook w with
    | .halt r => ∀ e ∈ r.trace, e.isImageBuild = false
    | .go evs _ _ => ∀ e ∈ evs, e.isImageBuild = false := by
  unfold initHook
  dsimp only
  cases getProjectConfig w.file w.detected with
  | none => simp
  | some config =>
    dsimp only
    by_cases ht : config.toolchainTruthy = true
    · simp only [ht, Bool.not_true, Bool.false_eq_true, if_false]
      cases w.lookup (config.get "toolchain") with
      | exits code => simp
      | throws => simp
      | ret plugin =>
        dsimp only
        cases plugin.build (some config) w.arg "container_init" with
        | exits code => simp [Event.isImageBuild]
        | throws => simp [Event.isImageBuild]
        | ret res =>
          cases res with
          | none => simp [Event.isImageBuild]
          | some ret =>
            dsimp only
            cases ret.run with
            | none => simp [Event.isImageBuild]
            | some run =>
              dsimp only
              by_cases hl : run.length = 0 <;> simp [hl, Event.isImageBuild]
    · simp [ht, Event.isImageBuild]

theorem base_no_build (w : World) :
    ∀ e ∈ (if !w.lists "azureiot/iotz_local" then [Event.provisionBase] else []),
      e.isImageBuild = false := by
  intro e he
  by_cases hb : w.lists "azureiot/iotz_local" = true
  · simp [hb] at he
  · simp [hb] at he
    subst he
    rfl

/-- The listing is searched as text: it holds only the image of the project
with inode 123, no image named `aiot_iotz_12`, yet for the project with inode
12 `compile` builds nothing and the callback is called with 0, because the
name `aiot_iotz_12` occurs inside `aiot_iotz_123`. -/
theorem createImage_skips_build_on_longer_name :
    listsImageNamed listingWith123 (containerName 12) = false ∧
    createImage
        (sampleWorld listingWith123 12 "compile" (.str "main.py")
          (some [("toolchain", .str "quiet")]))
        (some [("toolchain", .str "quiet")]) idleCallback = idleCallback 0 ∧
    ¬ (∃ e ∈ (createImage
        (sampleWorld listingWith123 12 "compile" (.str "main.py")
          (some [("toolchain", .str "quiet")]))
        (some [("toolchain", .str "quiet")]) idleCallback).trace, e.isImageBuild = true) := by
  decide

/-- The build decision in terms of the text search that `createImage` performs:
it writes the build script and invokes the image build if and only if the
listing does not contain the text of the image name or the command is `init`,
and the container-initialization hook returns. -/
theorem createImage_build_decision_text (w : World) (config : Option Config) (cb : Nat → Run)
    (hconnect : w.command ≠ "connect")
    (hclean : ¬ (w.command = "clean" ∧ config = none))
    (hcb : ∀ code : Nat, ∀ e ∈ (cb code).trace, e.isImageBuild = false) :
    ((∃ e ∈ (createImage w config cb).trace, e.isImageBuild = true) ↔
      ((w.lists (containerName w.ino) = false ∨ w.command = "init") ∧ hookReturns w = true)) ∧
    (((w.lists (containerName w.ino) = false ∨ w.command = "init") ∧ hookReturns w = true) →
      (∃ content : String, Event.writeDockerfile content ∈ (createImage w config cb).trace) ∧
      Event.dockerBuild (containerName w.ino) ∈ (createImage w config cb).trace) ∧
    (¬ (w.lists (containerName w.ino) = false ∨ w.command = "init") →
      createImage w config cb =
        Run.after (if !w.lists "azureiot/iotz_local" then [Event.provisionBase] else [])
          (cb 0)) := by
  have hclean' : ¬ (w.command = "clean" ∧ config.isNone = true) := by
    intro h
    exact hclean ⟨h.1, by simpa using h.2⟩
  by_cases hcond : w.lists (containerName w.ino) = false ∨ w.command = "init"
  · have hcond' : (!w.lists (containerName w.ino)) = true ∨ w.command = "init" := by
      simpa using hcond
    have hno := initHook_no_build w
    cases hh : initHook w with
    | halt r =>
      rw [hh] at hno
      have hrun : createImage w config cb =
          Run.after ((if !w.lists "azureiot/iotz_local" then [Event.provisionBase] else []) ++
            [.stdout .initializing]) r := by
        simp only [createImage, hclean', hcond', hconnect, hh, if_true, if_false]
      have hret : hookReturns w = false := by simp [hookReturns, hh]
      have hnone : ∀ e ∈ (createImage w config cb).trace, e.isImageBuild = false := by
        rw [hrun]
        intro e he
        simp only [Run.after, List.mem_append, List.mem_singleton] at he
        rcases he with (he | he) | he
        · exact base_no_build w e he
        · subst he; rfl
        · exact hno e he
      refine ⟨⟨fun ⟨e, he, hb⟩ => ?_, fun h => ?_⟩, fun h => ?_, fun h => absurd hcond h⟩
      · rw [hnone e he] at hb; exact absurd hb (by decide)
      · rw [hret] at h; exact absurd h.2 (by decide)
      · rw [hret] at h; exact absurd h.2 (by decide)
    | go evs ret runCmd =>
      have hrun : createImage w config cb =
          Run.after ((if !w.lists "azureiot/iotz_local" then [Event.provisionBase] else []) ++
            [.stdout .initializing] ++ evs ++
              [.writeDockerfile (dockerfile (containerName w.ino) runCmd),
               .dockerBuild (containerName w.ino), .removeDockerfile] ++ callbackEvents ret)
            (cb w.buildExit) := by
        simp only [createImage, hclean', hcond', hconnect, hh, if_true, if_false]
      have hret : hookReturns w = true := by simp [hookReturns, hh]
      have hw : Event.writeDockerfile (dockerfile (containerName w.ino) runCmd) ∈
          (createImage w config cb).trace := by
        rw [hrun]; simp [Run.after]
      have hb : Event.dockerBuild (containerName w.ino) ∈ (createImage w config cb).trace := by
        rw [hrun]; simp [Run.after]
      exact ⟨⟨fun _ => ⟨hcond, hret⟩, fun _ => ⟨_, hw, rfl⟩⟩, fun _ => ⟨⟨_, hw⟩, hb⟩,
        fun h => absurd hcond h⟩
  · have hcond' : ¬ ((!w.lists (containerName w.ino)) = true ∨ w.command = "init") := by
      simpa using hcond
    have hrun : createImage w config cb =
        Run.after (if !w.lists "azureiot/iotz_local" then [Event.provisionBase] else [])
          (cb 0) := by
      simp only [createImage, hclean', hcond', if_false]
    refine ⟨⟨fun ⟨e, he, hb⟩ => ?_, fun h => absurd h.1 hcond⟩, fun h => absurd h.1 hcond,
      fun _ => hrun⟩
    rw [hrun] at he
    simp only [Run.after, List.mem_append] at he
    rcases he with he | he
    · rw [base_no_build w e he] at hb; exact absurd hb (by decide)
    · rw [hcb 0 e he] at hb; exact absurd hb (by decide)

/-- C1, as stated, fails: `iotz init` with `{"toolchain":"micro-python"}`, and
likewise with a toolchain the registry does not know. The command is `init`,
yet no build script is written and no image build is invoked, because the
container-initialization hook ends the process with code 1 first. -/
theorem createImage_init_hook_ends_process :
    createImage
        (sampleWorld listingWith7 7 "init" .minusOne
          (some [("toolchain", .str "micro-python")]))
        (some [("toolchain", .str "micro-python")]) idleCallback =
      ⟨[.stdout .initializing, .pluginBuild .minusOne "container_init"], .exited 1⟩ ∧
    createImage
        (sampleWorld listingWith7 7 "init" .minusOne (some [("toolchain", .str "nope")]))
        (some [("toolchain", .str "nope")]) idleCallback =
      ⟨[.stdout .initializing], .exited 1⟩ := by
  decide

/-- C1, amended: for every listing in which the text of the image name occurs
exactly when an image of that name is listed, every inode and every command
other than `connect` and other than `clean` without a config, `createImage`
writes the build script and invokes the image build if and only if no image
named exactly `"aiot_iotz_" + i` is listed or the command is `init`, and the
container-initialization hook returns instead of ending the process; when the
image is listed and the command is not `init` it builds nothing and calls the
callback with 0, after provisioning the base image if the listing lacks it.
In particular `init` builds even when the image is listed. -/
theorem createImage_build_decision (w : World) (config : Option Config) (cb : Nat → Run)
    (hconnect : w.command ≠ "connect")
    (hclean : ¬ (w.command = "clean" ∧ config = none))
    (hcb : ∀ code : Nat, ∀ e ∈ (cb code).trace, e.isImageBuild = false)
    (hagree : w.lists (containerName w.ino) = listsImageNamed w.images (containerName w.ino)) :
    ((∃ e ∈ (createImage w config cb).trace, e.isImageBuild = true) ↔
      ((listsImageNamed w.images (containerName w.ino) = false ∨ w.command = "init") ∧
        hookReturns w = true)) ∧
    (((listsImageNamed w.images (containerName w.ino) = false ∨ w.command = "init") ∧
        hookReturns w = true) →
      (∃ content : String, Event.writeDockerfile content ∈ (createImage w config cb).trace) ∧
      Event.dockerBuild (containerName w.ino) ∈ (createImage w config cb).trace) ∧
    (¬ (listsImageNamed w.images (containerName w.ino) = false ∨ w.command = "init") →
      createImage w config cb =
        Run.after (if !w.lists "azureiot/iotz_local" then [Event.provisionBase] else [])
          (cb 0)) := by
  rw [← hagree]
  exact createImage_build_decision_text w config cb hconnect hclean hcb

theorem createImage_build_decision_witness :
    (∃ content : String, Event.writeDockerfile content ∈
      (createImage
        (sampleWorld listingWith7 7 "init" .minusOne (some [("toolchain", .str "quiet")]))
        (some [("toolchain", .str "quiet")]) idleCallback).trace) ∧
    Event.dockerBuild (containerName 7) ∈
      (createImage
        (sampleWorld listingWith7 7 "init" .minusOne (some [("toolchain", .str "quiet")]))
        (some [("toolchain", .str "quiet")]) idleCallback).trace :=
  (createImage_build_decision
    (sampleWorld listingWith7 7 "init" .minusOne (some [("toolchain", .str "quiet")]))
    (some [("toolchain", .str "quiet")]) idleCallback (by decide)
    (fun h => absurd h.1 (by decide)) (fun _ _ he => by simp [idleCallback] at he)
    (by decide)).2.1 ⟨Or.inr rfl, by decide⟩

/-! ## A required build without a toolchain -/

/-- C9, as stated, fails: `iotz init` on a project whose `iotz.json` has no
`toolchain`, with no project image yet. `createImage` prints a warning, writes
the build script, runs the image build and hands its exit code to the
callback; it does not end the process. -/
theorem createImage_builds_without_toolchain_example :
    createImage
        (sampleWorld listingBaseOnly 7 "init" .minusOne (some [("name", .str "demo")]))
        (some [("name", .str "demo")]) idleCallback =
      ⟨[.stdout .initializing, .stderr .warnNoToolchain,
        .writeDockerfile (dockerfile "aiot_iotz_7" .minusOne),
        .dockerBuild "aiot_iotz_7", .removeDockerfile], .finished⟩ ∧
    ¬ (∀ e ∈ (createImage
        (sampleWorld listingBaseOnly 7 "init" .minusOne (some [("name", .str "demo")]))
        (some [("name", .str "demo")]) idleCallback).trace, e.isImageBuild = false) := by
  decide

/-- C9, amended: during a required image build (image name not in the listing,
or command `init`; command not `connect`), when the re-resolved config is null
or its `toolchain` is absent or falsy, `createImage` does not end the process:
it prints a warning (only when there is a config), calls no plugin, writes a
build script, invokes the image build, removes the script and passes the exit
code of the build to the callback. -/
theorem createImage_builds_without_toolchain (w : World) (config : Option Config)
    (cb : Nat → Run)
    (hconnect : w.command ≠ "connect")
    (hclean : ¬ (w.command = "clean" ∧ config = none))
    (hneeded : w.lists (containerName w.ino) = false ∨ w.command = "init")
    (hcfg : ∀ c : Config, getProjectConfig w.file w.detected = some c →
      c.toolchainTruthy = false) :
    ∃ script : String,
      createImage w config cb =
        Run.after
          ((if !w.lists "azureiot/iotz_local" then [Event.provisionBase] else []) ++
            [.stdout .initializing] ++
            (if (getProjectConfig w.file w.detected).isSome then
              [Event.stderr .warnNoToolchain] else []) ++
            [.writeDockerfile script, .dockerBuild (containerName w.ino), .removeDockerfile])
          (cb w.buildExit) := by
  have hclean' : ¬ (w.command = "clean" ∧ config.isNone = true) := by
    intro h
    exact hclean ⟨h.1, by simpa using h.2⟩
  have hcond' : (!w.lists (containerName w.ino)) = true ∨ w.command = "init" := by
    simpa using hneeded
  refine ⟨dockerfile (containerName w.ino) w.arg, ?_⟩
  cases hg : getProjectConfig w.file w.detected with
  | none =>
    have hh : initHook w = .go [] none w.arg := by simp [initHook, hg]
    simp only [createImage, hclean', hcond', hconnect, hh, callbackEvents, if_true, if_false,
      hg, Option.isSome_none, Option.isSome_some, Bool.false_eq_true, List.append_nil,
      List.append_assoc, List.nil_append]
  | some c =>
    have hh : initHook w = .go [.stderr .warnNoToolchain] none w.arg := by
      simp [initHook, hg, hcfg c hg]
    simp only [createImage, hclean', hcond', hconnect, hh, callbackEvents, if_true, if_false,
      hg, Option.isSome_none, Option.isSome_some, Bool.false_eq_true, List.append_nil,
      List.append_assoc, List.nil_append]

theorem createImage_builds_without_toolchain_witness :
    ∃ script : String,
      createImage (sampleWorld listingBaseOnly 7 "compile" (.str "main.py") none) none
          idleCallback =
        ⟨[.stdout .initializing, .writeDockerfile script, .dockerBuild (containerName 7),
          .removeDockerfile], .finished⟩ :=
  createImage_builds_without_toolchain
    (sampleWorld listingBaseOnly 7 "compile" (.str "main.py") none) none idleCallback
    (by decide) (fun h => absurd h.1 (by decide)) (Or.inl (by decide))
    (fun c h => by simp [sampleWorld, getProjectConfig] at h)

/-! ## The content of the build script -/

/-- C10 fails on the code: the argument of the command ends up in the build
script. `iotz compile main.py` without `iotz.json` and without a project image
writes a script whose last line is `RUN echo "Setting up aiot_iotz_7" main.py`,
and `iotz init` with a plugin whose container-initialization hook returns no
lines writes one that ends in `-1`. -/
theorem dockerfile_holds_argument :
    (createImage (sampleWorld listingBaseOnly 7 "compile" (.str "main.py") none) none
        idleCallback).trace =
      [.stdout .initializing,
       .writeDockerfile
        ("\n    FROM azureiot/iotz_local\n\n    WORKDIR /src/program\n\n" ++
          "    RUN echo \"Setting up aiot_iotz_7\" main.py"),
       .dockerBuild "aiot_iotz_7", .removeDockerfile] ∧
    (createImage
        (sampleWorld listingBaseOnly 7 "init" .minusOne (some [("toolchain", .str "quiet")]))
        (some [("toolchain", .str "quiet")]) idleCallback).trace =
      [.stdout .initializing, .pluginBuild .minusOne "container_init",
       .writeDockerfile
        ("\n    FROM azureiot/iotz_local\n\n    WORKDIR /src/program\n\n" ++
          "    RUN echo \"Setting up aiot_iotz_7\" -1"),
       .dockerBuild "aiot_iotz_7", .removeDockerfile] := by
  decide

/-- When the container-initialization hook returns a non-empty `run`, the
script ends in `&& ` followed by that string and the argument is not in it. -/
theorem dockerfile_with_plugin_lines (w : World) (c : Config) (plugin : Plugin)
    (ret : BuildResult) (run : String)
    (hg : getProjectConfig w.file w.detected = some c) (ht : c.toolchainTruthy = true)
    (hl : w.lookup (c.get "toolchain") = .ret plugin)
    (hb : plugin.build (some c) w.arg "container_init" = .ret (some ret))
    (hr : ret.run = some run) (hne : run.length ≠ 0) :
    initHook w =
      .go [.pluginBuild w.arg "container_init"] (some ret) (.str ("&& " ++ run)) ∧
    dockerfile (containerName w.ino) (.str ("&& " ++ run)) =
      "\n    FROM azureiot/iotz_local\n\n    WORKDIR /src/program\n\n    RUN echo \"Setting up "
        ++ containerName w.ino ++ "\" " ++ ("&& " ++ run) := by
  refine ⟨?_, rfl⟩
  simp [initHook, hg, ht, hl, hb, hr, hne]

/-! ## Error propagation in the dispatcher -/

/-- The `switch` of the dispatcher runs no container and calls no plugin
callback. -/
theorem branch_no_run_phase (w : World) (config : Option Config) :
    (branch w config).trace.all (fun ev => !ev.isRunPhase) = true := by
  simp only [branch]
  repeat' split
  all_goals simp [Branch.trace, cleanCommon, Event.isRunPhase]

/-- The `switch` returns from the handler only for `clean`. -/
theorem branch_returned (w : World) (config : Option Config)
    (h : (branch w config).returned = true) : w.command = "clean" := by
  simp only [branch] at h
  repeat' split at h
  all_goals simp_all [Branch.returned]

/-- C8, as stated, fails. After an image build that reports code 2: for
`compile` the plugin's `build` is still called before the process exits with
2; and for `clean` on a config without `toolchain` the cached image is removed
and the handler returns, so the process ends with code 0. -/
theorem dispatch_runs_branch_after_failed_build :
    makeBuild
        { sampleWorld listingBaseOnly 7 "compile" (.str "main.py")
            (some [("toolchain", .str "quiet")]) with buildExit := 2 } =
      ⟨[.stdout .initializing, .pluginBuild (.str "main.py") "container_init",
        .writeDockerfile (dockerfile "aiot_iotz_7" (.str "main.py")),
        .dockerBuild "aiot_iotz_7", .removeDockerfile,
        .pluginBuild (.str "main.py") "compile"], .exited 2⟩ ∧
    makeBuild
        { sampleWorld listingBaseOnly 7 "clean" .minusOne (some [("name", .str "demo")])
            with buildExit := 2 } =
      ⟨[.stdout .initializing, .stderr .warnNoToolchain,
        .writeDockerfile (dockerfile "aiot_iotz_7" .minusOne),
        .dockerBuild "aiot_iotz_7", .removeDockerfile,
        .imageRm "aiot_iotz_7", .stdout .containerDeleted], .finished⟩ := by
  decide

/-- C8, amended: when the image build reports a non-zero code `e`, the
dispatcher still executes the branch of the command (the plugin's `build` or
`directCall`, the interactive `connect` container), which may itself end the
process or, for `clean`, return; no container run and no plugin callback
happens, and once the branch completes the process exits with code `e`. When
the container run reports a non-zero code `e`, the plugin callback and the
clean-up are skipped and the process exits with code `e`. -/
theorem dispatch_error_propagation (w : World) (config : Option Config) (e : Nat)
    (he : e ≠ 0) :
    (∀ ev ∈ (dispatch w config e).trace, ev.isRunPhase = false) ∧
    (∀ (evs : List Event) (ret : Option BuildResult) (runCmd : CmdVal),
      branch w config = .go evs ret runCmd →
        (dispatch w config e).outcome = .exited e ∧
        ((dispatch w config e).trace = evs ∨
          (dispatch w config e).trace = evs ++ [.stderr .needCommand])) ∧
    (∀ r : Run, branch w config = .halt r → dispatch w config e = r) ∧
    ((dispatch w config e).outcome = .finished → w.command = "clean") ∧
    (∀ ret : Option BuildResult, afterRun w ret e = ⟨[], .exited e⟩) ∧
    (∀ (CMD : String) (ret : Option BuildResult), w.runExit = e →
      runCommand w CMD (afterRun w ret) =
        ⟨[.containerRm (instanceName w.ino),
          .containerRun (instanceName w.ino) (containerName w.ino) CMD], .exited e⟩) := by
  have hquiet := branch_no_run_phase w config
  have hret := branch_returned w config
  have hafter : ∀ ret : Option BuildResult, afterRun w ret e = ⟨[], .exited e⟩ := by
    intro ret
    simp [afterRun, he]
  refine ⟨?_, ?_, ?_, ?_, hafter, ?_⟩
  · intro ev hev
    cases hb : branch w config with
    | halt r =>
      rw [hb] at hquiet
      simp only [dispatch, hb] at hev
      simpa using (List.all_eq_true.mp hquiet) ev hev
    | go evs ret runCmd =>
      rw [hb] at hquiet
      have hq : ∀ x ∈ evs, x.isRunPhase = false := fun x hx => by
        simpa using (List.all_eq_true.mp hquiet) x hx
      simp only [dispatch, hb] at hev
      cases ho : overrideRun ret runCmd with
      | minusOne =>
        simp only [ho, List.mem_append, List.mem_singleton] at hev
        rcases hev with hev | hev
        · exact hq ev hev
        · subst hev; rfl
      | str CMD =>
        simp only [ho, he, ne_eq, not_false_eq_true, if_true] at hev
        exact hq ev hev
  · intro evs ret runCmd hb
    cases ho : overrideRun ret runCmd with
    | minusOne => simp [dispatch, hb, ho, he]
    | str CMD => simp [dispatch, hb, ho, he]
  · intro r hb
    simp [dispatch, hb]
  · intro hfin
    cases hb : branch w config with
    | halt r =>
      apply hret
      simp only [dispatch, hb] at hfin
      simp [hb, Branch.returned, hfin]
    | go evs ret runCmd =>
      cases ho : overrideRun ret runCmd with
      | minusOne => simp [dispatch, hb, ho] at hfin
      | str CMD => simp [dispatch, hb, ho, he] at hfin
  · intro CMD ret hx
    simp [runCommand, Run.after, hx, hafter]

theorem dispatch_error_propagation_witness :
    dispatch
        (sampleWorld listingBaseOnly 7 "compile" (.str "main.py")
          (some [("toolchain", .str "quiet")]))
        (some [("toolchain", .str "quiet")]) 2 =
      ⟨[.pluginBuild (.str "main.py") "compile"], .exited 2⟩ ∧
    (2 : Nat) ≠ 0 ∧
    ∀ ev ∈ (dispatch
        (sampleWorld listingBaseOnly 7 "compile" (.str "main.py")
          (some [("toolchain", .str "quiet")]))
        (some [("toolchain", .str "quiet")]) 2).trace, ev.isRunPhase = false :=
  ⟨by decide, by decide,
    (dispatch_error_propagation
      (sampleWorld listingBaseOnly 7 "compile" (.str "main.py")
        (some [("toolchain", .str "quiet")]))
      (some [("toolchain", .str "quiet")]) 2 (by decide)).1⟩

end Iotz
